import Mathlib

/-!
Verification of the `nantawat_tool` Langflow component collection.

A shallow embedding, in Lean 4, of the pure logic of the components in
`src/components/nantawat_tool`: virtual-environment discovery and subprocess
launching (`supprocess_component.py`, `score_web_subp.py`), the remote
embedding client (`embed_components.py`), the FAISS file-backed vector store
(`faiss_vectorstore.py`), the Milvus networked vector store
(`milvus_vectorstore.py`), and the MongoDB document store
(`no_sql_datastore.py`).

External effects (filesystem, child processes, HTTP, database servers) are
modelled by explicit state values and effect traces; machine floats that
only ever flow through order comparisons are modelled by rationals.

The file is laid out with all definitions first, followed by the supporting
lemmas and the claim theorems.
-/

set_option autoImplicit false

namespace NantawatTool
/-! Common data model

`MVal` is the value type stored in record/metadata dictionaries.  Python
dictionaries are modelled as insertion-ordered association lists with unique
update semantics (`dictSet` mirrors `d[k] = v` on a CPython dict: overwrite
in place when the key exists, append otherwise). -/

inductive MVal where
  | int (n : Int)
  | str (s : String)
  deriving DecidableEq, Repr

abbrev Dict (α : Type) := List (String × α)

/-- First-match lookup in an association list (a Python `d[k]` read). -/
def dictGet {α : Type} (m : Dict α) (k : String) : Option α :=
  match m with
  | [] => none
  | (k₀, v₀) :: rest => if k₀ = k then some v₀ else dictGet rest k

/-- CPython `d[k] = v`: overwrite the existing entry in place (keeping its
position), else append the new entry at the end. -/
def dictSet {α : Type} (m : Dict α) (k : String) (v : α) : Dict α :=
  match m with
  | [] => [(k, v)]
  | (k₀, v₀) :: rest =>
      if k₀ = k then (k, v) :: rest else (k₀, v₀) :: dictSet rest k v

/-- Predicate `strContainsSub hay needle` : `needle` occurs as a contiguous substring
of `hay` (used to state "the error message contains the stderr text"). -/
def strContainsSub (hay needle : String) : Bool :=
  (List.range (hay.toList.length + 1)).any
    (fun i => List.isPrefixOf needle.toList (hay.toList.drop i))

/-! Filesystem paths

An absolute, already-resolved path is the list of its components from the
filesystem root (`[]` is `/`).  `Path.resolve` side effects are modelled by
taking resolved paths as inputs; the state of the filesystem is a predicate
`fs : FsPath → Bool` saying which paths exist. -/

abbrev FsPath := List String

/-- Value of `list(p.parents)` for an absolute `pathlib` path: each proper ancestor,
nearest first, filesystem root last. -/
def pathParents (p : FsPath) : List FsPath :=
  (List.range p.length).reverse.map (fun k => p.take k)

/-- The chain `[current, *current.parents]` walked by `find_venv_path`. -/
def venvChain (p : FsPath) : List FsPath :=
  p :: pathParents p

/-- Model of `find_venv_path` (`supprocess_component.py`): walk the chain; at each
directory `parent`, if `parent/.venv/bin/python` exists return
`parent/.venv`; otherwise `None`. -/
def find_venv_path (fs : FsPath → Bool) (startPath : FsPath)
    (venvName : String := ".venv") : Option FsPath :=
  (venvChain startPath).findSome? (fun parent =>
    let venvDir := parent ++ [venvName]
    if fs (venvDir ++ ["bin", "python"]) then some venvDir else none)

/-- Model of `find_venv_path_from_file`: resolve the file path and walk up from its
parent directory. -/
def find_venv_path_from_file (fs : FsPath → Bool) (filePath : FsPath)
    (venvName : String := ".venv") : Option FsPath :=
  find_venv_path fs filePath.dropLast venvName

/-! Subprocess components

`supprocess_component.py` and `score_web_subp.py`.  The operating system is
modelled by `fs` (which paths exist), `resolve` (`Path(...).resolve()`,
which depends on the working directory) and `run` (child-process execution,
returning exit code and captured stdout/stderr).  `subprocess.run` with
`check=True` raises `CalledProcessError` exactly when the exit code is
non-zero. -/

structure ProcResult where
  exitCode : Int
  stdout : String
  stderr : String

inductive CompError where
  | fileNotFound (msg : String)
  | valueError (msg : String)
  | typeError (msg : String)
  | runtimeError (msg : String)
  | indexError
  deriving DecidableEq, Repr

def pathToString (p : FsPath) : String := "/" ++ String.intercalate "/" p

/-- Python `str.split()` with no separator: split on whitespace runs,
discarding empty pieces. -/
def splitWhitespace (s : String) : List String :=
  (s.split Char.isWhitespace).filter (fun t => !t.isEmpty)

/-- Python `str.strip()` with no argument: drop leading and trailing
whitespace.  Modelled over the character list so that it evaluates inside
the kernel. -/
def pyStrip (s : String) : String :=
  String.mk
    (((s.toList.dropWhile Char.isWhitespace).reverse.dropWhile
        Char.isWhitespace).reverse)

/-- The command line built by `SubprocessComponent.fetch_output`:
`[str(venv_python), str(self.module_directory), *arguments]`. -/
def subprocess_command_list (venv_python : FsPath) (module_directory : String)
    (arguments : List String) : List String :=
  [pathToString venv_python, module_directory] ++ arguments

/-- Model of `SubprocessComponent.fetch_output`.  The `arguments` input is a list
when supplied as one (`is_list=True`), otherwise a string split on
whitespace. -/
def subprocess_fetch_output (fs : FsPath → Bool) (resolve : String → FsPath)
    (run : List String → ProcResult) (module_directory : String)
    (arguments : List String ⊕ String) : Except CompError (Dict String) :=
  match find_venv_path_from_file fs (resolve module_directory) with
  | none =>
      .error (.fileNotFound ("No virtual environment found for " ++ module_directory))
  | some venv_path =>
    let venv_python := venv_path ++ ["bin", "python"]
    if fs venv_python = false then
      .error (.fileNotFound ("Python interpreter not found in " ++ pathToString venv_python))
    else
      let args : List String :=
        match arguments with
        | .inl l => l
        | .inr s => splitWhitespace s
      if pyStrip module_directory = "" then
        .error (.valueError "Module directory cannot be empty.")
      else
        let command_list := subprocess_command_list venv_python module_directory args
        let result := run command_list
        if result.exitCode = 0 then
          .ok [("output", pyStrip result.stdout)]
        else
          .error (.runtimeError ("Command failed with error: " ++ pyStrip result.stderr))

/-- The set of characters `shlex.quote` treats as safe: ASCII alphanumerics
and underscore (ASCII `\w`) plus at-sign, percent, plus, equals, colon,
comma, dot, slash and dash (the complement of the characters its
internal regex flags). -/
def shlexSafeChar (c : Char) : Bool :=
  c.isAlphanum || c = '_' || c = '@' || c = '%' || c = '+' || c = '=' ||
    c = ':' || c = ',' || c = '.' || c = '/' || c = '-'

/-- Model of `shlex.quote`: empty strings become `''`; strings of safe characters are
returned unchanged; anything else is wrapped in single quotes with every
embedded single quote replaced by the quote-escape sequence. -/
def shlex_quote (s : String) : String :=
  if s = "" then "\x27\x27"
  else if s.toList.all shlexSafeChar then s
  else
    "\x27" ++
      String.mk (s.toList.flatMap (fun c =>
        if c = '\x27' then "\x27\"\x27\"\x27".toList else [c])) ++
      "\x27"

/-- The command line built by `OfficialWebsiteScore.fetch_output`:
`[str(venv_python), str(self.module_directory), "--query", shlex.quote(name_search)]`. -/
def webscore_command_list (venv_python : FsPath) (module_directory : String)
    (name_search : String) : List String :=
  [pathToString venv_python, module_directory] ++ ["--query", shlex_quote name_search]

/-- Model of `OfficialWebsiteScore.fetch_output`. -/
def webscore_fetch_output (fs : FsPath → Bool) (resolve : String → FsPath)
    (run : List String → ProcResult) (module_directory : String)
    (name_search : String) : Except CompError (Dict String) :=
  match find_venv_path_from_file fs (resolve module_directory) with
  | none =>
      .error (.fileNotFound ("No virtual environment found for " ++ module_directory))
  | some venv_path =>
    let venv_python := venv_path ++ ["bin", "python"]
    if fs venv_python = false then
      .error (.fileNotFound ("Python interpreter not found in " ++ pathToString venv_python))
    else
      if pyStrip module_directory = "" then
        .error (.valueError "Module directory cannot be empty.")
      else
        let command_list := webscore_command_list venv_python module_directory name_search
        let result := run command_list
        if result.exitCode = 0 then
          .ok [("output", pyStrip result.stdout)]
        else
          .error (.runtimeError ("Command failed with error: " ++ pyStrip result.stderr))

/-- A filesystem with exactly one interpreter, at `/home/.venv/bin/python`. -/
def fsEx : FsPath → Bool := fun p => decide (p = ["home", ".venv", "bin", "python"])

/-- Resolution of the script path against a working directory of `/`. -/
def resolveEx : String → FsPath := fun _ => ["home", "proj", "script.py"]

/-- A child process that prints padded `hello` and succeeds. -/
def runOkEx : List String → ProcResult := fun _ => ⟨0, " hello \n", ""⟩

/-- A child process that fails with whitespace-padded stderr. -/
def runFailEx : List String → ProcResult := fun _ => ⟨1, "", " boom "⟩

/-! Embedding adapter (`embed_components.py`)

The remote HTTP service is a function from requests to JSON responses. -/

inductive JsonVal where
  | null
  | num (q : ℚ)
  | str (s : String)
  | arr (l : List JsonVal)
  | other

/-- The endpoint hard-coded inside `EmbedModelJ._embed` (local variable
`url_jina`). -/
def url_jina : String := "http://172.17.101.36:8086/embed"

/-- The embedding client: `url_embedding` is the URL the instance was
constructed with (the `EmbedModelJ` pydantic field). -/
structure EmbedModelJ where
  url_embedding : String
  deriving DecidableEq, Repr

/-- An HTTP POST of a JSON body with single key `inputs` (the session adds
the JSON content-type header). -/
structure PostRequest where
  url : String
  inputsPayload : String
  deriving DecidableEq, Repr

/-- The request issued by `EmbedModelJ._embed`: the POST goes to the local
variable `url_jina`, not to `self.url_embedding`. -/
def embedPostRequest (_m : EmbedModelJ) (text : String) : PostRequest :=
  { url := url_jina, inputsPayload := text }

/-- Response handling in `_embed`: a missing (`None`) or non-list JSON body
raises `ValueError`; a list yields its first element (`embeddings[0]`, so an
empty list raises `IndexError`). -/
def embedExtract (resp : JsonVal) : Except CompError JsonVal :=
  match resp with
  | .arr (x :: _) => .ok x
  | .arr [] => .error .indexError
  | _ => .error (.valueError "Invalid response from Jina API. Expected a list of embeddings.")

/-- Model of `EmbedModelJ._embed` against the external HTTP server `http`. -/
def embed_one (http : PostRequest → JsonVal) (m : EmbedModelJ) (text : String) :
    Except CompError JsonVal :=
  embedExtract (http (embedPostRequest m text))

/-- Model of `EmbedJina.build_embeddings`: fails when the URL field is unset,
otherwise constructs the client bound to that URL. -/
def build_embeddings (url_embed : String) : Except CompError EmbedModelJ :=
  if url_embed = "" then .error (.valueError "Embedding URL is required.")
  else .ok { url_embedding := url_embed }

/-! FAISS file-backed vector store (`faiss_vectorstore.py`)

The embedding handle is a function from texts to vectors; the persisted
index file is represented by the returned index value; the flat-L2 engine's
answer to a query is a function from `k` to `k` (id, distance) pairs.
Float distances flow only through an order comparison and are modelled as
rationals. -/

/-- A LangChain `Document`: text body plus metadata mapping. -/
structure LCDocument where
  page_content : String
  metadata : Dict MVal
  deriving DecidableEq, Repr

/-- Model of `FaissVectorStoreComponent._combine_index_with_ingested_data`: zip the
documents with their FAISS ids and inject each id into a copy of the
document's metadata under the key `faiss_id`. -/
def FaissVectorStoreComponent.combine_index_with_ingested_data
    (documents : List LCDocument) (faiss_ids : List Int) : List LCDocument :=
  (documents.zip faiss_ids).map (fun p =>
    { page_content := p.1.page_content,
      metadata := dictSet p.1.metadata "faiss_id" (.int p.2) })

/-- The persisted index: the id/vector pairs added to the flat-L2
`IndexIDMap` by `add_with_ids`. -/
structure FaissIndex where
  entries : List (Int × List ℚ)

/-- Result of a successful Index-mode build: the persisted index and the
processed documents. -/
structure FaissBuildResult where
  index : FaissIndex
  documents : List LCDocument

/-- The core of `FaissVectorStoreComponent.build_vector_store`, from the
normalized document list on: fail when there are no documents; embed all
texts (failing when the embedding result is empty); assign ids `0..n-1` in
document order; add vectors with ids to the index (persisted via
`faiss.write_index`, represented by the returned value); and bind the ids
into the document metadata. -/
def FaissVectorStoreComponent.build_vector_store
    (embed_documents : List String → List (List ℚ))
    (documents : List LCDocument) : Except CompError FaissBuildResult :=
  if documents = [] then .error (.valueError "No documents to index.")
  else
    let texts := documents.map (fun d => d.page_content)
    let embeddings := embed_documents texts
    if embeddings = [] then
      .error (.valueError "Embedding function failed to return embeddings.")
    else
      let faiss_ids : List Int := (List.range documents.length).map (fun i => Int.ofNat i)
      .ok { index := { entries := faiss_ids.zip embeddings },
            documents :=
              FaissVectorStoreComponent.combine_index_with_ingested_data
                documents faiss_ids }

/-- The Search-mode query guard (shared shape in `faiss_vectorstore.py` and
`milvus_vectorstore.py`): the query must be present, a string, and non-blank
after stripping. -/
def isValidQuery (q : Option String) : Bool :=
  match q with
  | none => false
  | some s => !(s = "") && !(pyStrip s = "")

/-- The Search branch of `FaissVectorStoreComponent.get_results`: error when
the index file is missing; empty result for an invalid query; search for
`k = min(number_of_results, ntotal)` neighbors (empty result when `k = 0`);
then keep exactly the (id, distance) pairs with id not `-1` and distance
strictly greater than `similarity_threshold`, each as a record mapping
`faiss_id` to the id. -/
def FaissVectorStoreComponent.get_results_search
    (index_exists : Bool) (search_query : Option String)
    (number_of_results ntotal : Nat)
    (search : Nat → List Int × List ℚ)
    (similarity_threshold : ℚ) : Except CompError (List (Dict MVal)) :=
  if index_exists = false then
    .error (.valueError "Index not found. Please run the Index mode first.")
  else if isValidQuery search_query = false then .ok []
  else
    let k := min number_of_results ntotal
    if k = 0 then .ok []
    else
      let res := search k
      let faiss_ids := res.1
      let distances := res.2
      .ok (((faiss_ids.zip distances).filter
          (fun p => decide (p.1 ≠ -1) && decide (similarity_threshold < p.2))).map
        (fun p => [("faiss_id", MVal.int p.1)]))

/-! Mode-dependent field visibility (`update_build_config`) -/

/-- The `show` flags of a build config: field name to visibility. -/
abbrev BuildConfig := Dict Bool

/-- The platform helper `set_field_display` (from
`langflow.utils.component_utils`, outside this repository): sets the named
field's `show` flag in the build config. -/
def set_field_display (build_config : BuildConfig) (field : String)
    (value : Bool) : BuildConfig :=
  dictSet build_config field value

/-- Model of `FaissVectorStoreComponent.update_build_config`: on a change of the
`mode` field, toggle the visibility of the mode-dependent fields. -/
def FaissVectorStoreComponent.update_build_config (build_config : BuildConfig)
    (field_value : String) (field_name : Option String) : BuildConfig :=
  if field_name = some "mode" then
    if field_value = "Index" then
      set_field_display (set_field_display (set_field_display (set_field_display
        build_config "search_query" false) "number_of_results" false)
        "similarity_threshold" false) "ingest_data" true
    else if field_value = "Search" then
      set_field_display (set_field_display (set_field_display (set_field_display
        build_config "search_query" true) "number_of_results" true)
        "similarity_threshold" true) "ingest_data" false
    else build_config
  else build_config

/-- The class `MilvusVectorSTore` declares no `update_build_config` override, so its
configuration-update hook is the inherited platform default, which returns
the build config unchanged. -/
def MilvusVectorSTore.update_build_config (build_config : BuildConfig)
    (_field_value : String) (_field_name : Option String) : BuildConfig :=
  build_config

/-! Milvus networked vector store (`milvus_vectorstore.py`)

The server state visible through one connection: the list of databases (in
creation order), each with its collections, plus the connection's current
database context.  Operations issued to the service are recorded as a
trace. -/

/-- Fixed embedding dimensionality used for created collections
(`DIMENSION = 768`). -/
def DIMENSION : Nat := 768

structure MilvusCollection where
  name : String
  dim : Nat
  deriving DecidableEq, Repr

structure MilvusDatabase where
  name : String
  collections : List MilvusCollection
  deriving DecidableEq, Repr

structure MilvusServer where
  databases : List MilvusDatabase
  currentDb : String
  deriving DecidableEq, Repr

structure MilvusConfig where
  db_name : String
  collection_name : String
  number_of_results : Nat
  deriving Repr

/-- Model of `db.list_database()`. -/
def list_database (s : MilvusServer) : List String :=
  s.databases.map (fun d => d.name)

/-- Model of `db.using_database(name)`. -/
def using_database (s : MilvusServer) (name : String) : MilvusServer :=
  { s with currentDb := name }

/-- Model of `db.create_database(name)`: registers a new, empty database. -/
def create_database (s : MilvusServer) (name : String) : MilvusServer :=
  { s with databases := s.databases ++ [{ name := name, collections := [] }] }

/-- The collections of the connection's current database
(`utility.list_collections()`). -/
def currentCollections (s : MilvusServer) : List MilvusCollection :=
  match s.databases.find? (fun d => d.name = s.currentDb) with
  | some d => d.collections
  | none => []

/-- Apply `f` to the collection list of the current database. -/
def modifyCurrentDb (s : MilvusServer)
    (f : List MilvusCollection → List MilvusCollection) : MilvusServer :=
  { s with
    databases := s.databases.map (fun d =>
      if d.name = s.currentDb then { d with collections := f d.collections } else d) }

/-- Model of `Collection(name).drop()` in the current database. -/
def drop_collection (s : MilvusServer) (name : String) : MilvusServer :=
  modifyCurrentDb s (fun cols => cols.filter (fun c => c.name != name))

/-- Model of `client.create_collection(name, dimension)` in the current database. -/
def create_collection (s : MilvusServer) (name : String) (dim : Nat) : MilvusServer :=
  modifyCurrentDb s (fun cols => cols ++ [{ name := name, dim := dim }])

/-- The collections of the database named `n`. -/
def collectionsOf (s : MilvusServer) (n : String) : List MilvusCollection :=
  match s.databases.find? (fun d => d.name = n) with
  | some d => d.collections
  | none => []

/-- Observable operations issued against the Milvus service. -/
inductive MilvusOp where
  | listDatabases
  | usingDatabase (name : String)
  | createDatabase (name : String)
  | listCollections
  | dropCollection (name : String)
  | createCollection (name : String) (dim : Nat)
  | similaritySearch (query : String) (k : Nat)
  deriving DecidableEq, Repr

/-- Model of `MilvusVectorSTore.initial_client_vector_store`: list the databases and
use (or create, then use) the configured one; drop every collection
currently in it; create the configured collection with the fixed
768-dimension schema.  Returns the resulting server state and the operation
trace. -/
def MilvusVectorSTore.initial_client_vector_store (cfg : MilvusConfig)
    (s : MilvusServer) : MilvusServer × List MilvusOp :=
  let branch :=
    if cfg.db_name ∈ list_database s then
      (using_database s cfg.db_name, [MilvusOp.usingDatabase cfg.db_name])
    else
      (using_database (create_database s cfg.db_name) cfg.db_name,
        [MilvusOp.createDatabase cfg.db_name, MilvusOp.usingDatabase cfg.db_name])
  let s1 := branch.1
  let collNames := (currentCollections s1).map (fun c => c.name)
  let s2 := collNames.foldl (fun acc n => drop_collection acc n) s1
  let s3 := create_collection s2 cfg.collection_name DIMENSION
  (s3, [MilvusOp.listDatabases] ++ branch.2 ++ [MilvusOp.listCollections] ++
    collNames.map MilvusOp.dropCollection ++
    [MilvusOp.createCollection cfg.collection_name DIMENSION])

/-- Model of `build_vector_store` under the `@check_cached_vector_store` decorator:
when a cached store instance exists it is returned with no side effects;
otherwise provisioning runs and the built store is cached (third component:
is a store instance now cached). -/
def MilvusVectorSTore.build_vector_store (cached : Bool) (cfg : MilvusConfig)
    (s : MilvusServer) : MilvusServer × List MilvusOp × Bool :=
  if cached then (s, [], true)
  else
    let r := MilvusVectorSTore.initial_client_vector_store cfg s
    (r.1, r.2, true)

/-- Model of `MilvusVectorSTore.search_documents`: build the store (a second time
when called from `main`), then run the similarity search only when the
query is present, a string, and non-blank. -/
def MilvusVectorSTore.search_documents (cached : Bool) (cfg : MilvusConfig)
    (s : MilvusServer) (search_query : Option String) :
    MilvusServer × List MilvusOp × Bool :=
  let b := MilvusVectorSTore.build_vector_store cached cfg s
  if isValidQuery search_query then
    (b.1,
      b.2.1 ++ [MilvusOp.similaritySearch (search_query.getD "") cfg.number_of_results],
      b.2.2)
  else (b.1, b.2.1, b.2.2)

/-- Model of `MilvusVectorSTore.main` in Search mode: build the vector store, then
delegate to `search_documents` (whose inner build is then a cache hit). -/
def MilvusVectorSTore.main_search (cached : Bool) (cfg : MilvusConfig)
    (s : MilvusServer) (search_query : Option String) :
    MilvusServer × List MilvusOp :=
  let b := MilvusVectorSTore.build_vector_store cached cfg s
  let r := MilvusVectorSTore.search_documents b.2.2 cfg b.1 search_query
  (r.1, b.2.1 ++ r.2.1)

/-! MongoDB document store (`no_sql_datastore.py`) -/

/-- Observable operations issued against the document database. -/
inductive MongoOp where
  | deleteMany
  | insertMany (batch : List (Dict MVal))
  deriving DecidableEq, Repr

structure MongoCollection where
  docs : List (Dict MVal)

/-- The slices produced by `for i in range(0, len(data), batch_size)` with
`batch = data[i : i + batch_size]`. -/
def ingestBatches {α : Type} (data : List α) (batch_size : Nat) : List (List α) :=
  (List.range' 0 ((data.length + batch_size - 1) / batch_size) batch_size).map
    (fun i => (data.drop i).take batch_size)

/-- Model of `MongoDBStore.__ingest`: delete every document in the collection, then
(unless suppressed by `index=False`) insert the ingest payloads in
contiguous batches of `batch_size`, one `insert_many` call per batch.
Connection management (`maybe_create_db`) touches no collection data. -/
def MongoDBStore.ingest (index : Bool) (ingest_data : List (Dict MVal))
    (batch_size : Nat) (_c : MongoCollection) : MongoCollection × List MongoOp :=
  let c1 : MongoCollection := { docs := [] }
  if index = false then (c1, [MongoOp.deleteMany])
  else
    let batches := ingestBatches ingest_data batch_size
    (batches.foldl (fun acc b => { docs := acc.docs ++ b }) c1,
      [MongoOp.deleteMany] ++ batches.map MongoOp.insertMany)

/-- Concrete configuration and server state used by witnesses. -/
def milvusCfgEx : MilvusConfig :=
  { db_name := "langflow_db", collection_name := "langflow", number_of_results := 4 }

def milvusServerEx : MilvusServer :=
  { databases := [⟨"langflow_db", [⟨"old1", 768⟩, ⟨"old2", 128⟩]⟩],
    currentDb := "default" }
/-! Supporting lemmas -/

theorem dictGet_dictSet_same {α : Type} (m : Dict α) (k : String) (v : α) :
    dictGet (dictSet m k v) k = some v := by
  induction m with
  | nil => simp [dictSet, dictGet]
  | cons p rest ih =>
    by_cases hp : p.1 = k
    · simp [dictSet, hp, dictGet]
    · simp [dictSet, hp, dictGet, ih]

theorem dictGet_dictSet_other {α : Type} (m : Dict α) (k k' : String) (v : α)
    (hne : k' ≠ k) : dictGet (dictSet m k v) k' = dictGet m k' := by
  induction m with
  | nil =>
    have : ¬ k = k' := fun h => hne h.symm
    simp [dictSet, dictGet, this]
  | cons p rest ih =>
    by_cases hp : p.1 = k
    · have hkk' : ¬ k = k' := fun h => hne h.symm
      have hpk' : ¬ p.1 = k' := by rw [hp]; exact hkk'
      simp [dictSet, hp, dictGet, hkk', hpk']
    · by_cases hpk' : p.1 = k'
      · simp [dictSet, hp, dictGet, hpk', hne]
      · simp [dictSet, hp, dictGet, hpk', ih]

theorem strContainsSub_append_left (pre s : String) :
    strContainsSub (pre ++ s) s = true := by
  have hdata : (pre ++ s).toList = pre.toList ++ s.toList := by
    simp [String.toList]
  apply List.any_eq_true.mpr
  refine ⟨pre.toList.length, ?_, ?_⟩
  · simp [List.mem_range, hdata]
    omega
  · rw [hdata, List.drop_left]
    simp [ List.isPrefixOf_iff_prefix]

theorem findSome?_guard_eq_find?_map {α β : Type} (l : List α) (p : α → Bool)
    (f : α → β) :
    (l.findSome? (fun a => if p a then some (f a) else none)) =
      (l.find? p).map f := by
  induction l with
  | nil => rfl
  | cons a l ih =>
    by_cases h : p a <;> simp [List.findSome?_cons, List.find?_cons, h, ih]

theorem venvChain_eq_rev_prefixes (p : FsPath) :
    venvChain p = (List.range (p.length + 1)).reverse.map (fun k => p.take k) := by
  unfold venvChain pathParents
  rw [List.range_succ, List.reverse_append]
  simp

theorem find_venv_path_eq_find?_map (fs : FsPath → Bool) (p : FsPath)
    (venvName : String) :
    find_venv_path fs p venvName =
      ((venvChain p).find? (fun d => fs (d ++ [venvName, "bin", "python"]))).map
        (fun d => d ++ [venvName]) := by
  unfold find_venv_path
  have h : (fun parent : FsPath =>
        let venvDir := parent ++ [venvName]
        if fs (venvDir ++ ["bin", "python"]) then some venvDir else none) =
      (fun parent : FsPath =>
        if (fun d => fs (d ++ [venvName, "bin", "python"])) parent then
          some ((fun d : FsPath => d ++ [venvName]) parent) else none) := by
    funext parent
    simp [List.append_assoc]
  rw [h, findSome?_guard_eq_find?_map]

theorem find_venv_path_from_file_python_exists (fs : FsPath → Bool) (p v : FsPath)
    (h : find_venv_path_from_file fs p = some v) :
    fs (v ++ ["bin", "python"]) = true := by
  unfold find_venv_path_from_file at h
  rw [find_venv_path_eq_find?_map] at h
  rcases Option.map_eq_some'.mp h with ⟨d, hd, hv⟩
  have hpred := List.find?_some hd
  subst hv
  simpa [List.append_assoc] using hpred

theorem flatMap_keep_of_no_quote (l : List Char) (h : '\x27' ∉ l) :
    (l.flatMap (fun c => if c = '\x27' then "\x27\"\x27\"\x27".toList else [c])) = l := by
  induction l with
  | nil => rfl
  | cons c cs ih =>
    have hc : ¬ c = '\x27' := fun hcc => h (hcc ▸ List.mem_cons_self c cs)
    have hcs : '\x27' ∉ cs := fun hm => h (List.mem_cons_of_mem _ hm)
    rw [List.flatMap_cons, if_neg hc, ih hcs]
    rfl

/-! Claim theorems -/

/-- C7: virtual-environment discovery walks the resolved directory
containing the script and then each of its ancestors (starting point first,
filesystem root last) and returns the `.venv` of the first directory `d` on
that chain with `d/.venv/bin/python` existing; when no directory qualifies
it returns `None`. -/
theorem C7_find_venv_discovery (fs : FsPath → Bool) (filePath : FsPath) :
    find_venv_path_from_file fs filePath =
      (((venvChain filePath.dropLast).find?
          (fun d => fs (d ++ [".venv", "bin", "python"]))).map (fun d => d ++ [".venv"]))
    ∧ venvChain filePath.dropLast =
        (List.range (filePath.dropLast.length + 1)).reverse.map
          (fun k => filePath.dropLast.take k)
    ∧ (find_venv_path_from_file fs filePath = none ↔
        ∀ d ∈ venvChain filePath.dropLast, fs (d ++ [".venv", "bin", "python"]) = false) := by
  refine ⟨?_, venvChain_eq_rev_prefixes _, ?_⟩
  · unfold find_venv_path_from_file
    exact find_venv_path_eq_find?_map fs filePath.dropLast ".venv"
  · unfold find_venv_path_from_file
    rw [find_venv_path_eq_find?_map]
    rw [Option.map_eq_none', List.find?_eq_none]
    constructor
    · intro h d hd
      exact Bool.not_eq_true _ |>.mp (h d hd)
    · intro h d hd
      exact Bool.not_eq_true _ |>.mpr (h d hd)

/-- C8 (amended): with a discoverable interpreter and a non-blank module
directory, a child exit code of 0 yields the record mapping `output` to the
child's stdout trimmed of surrounding whitespace, and a non-zero exit yields
a RuntimeError (no record) whose message contains the child's stderr trimmed
of surrounding whitespace. -/
theorem C8_subprocess_run_capture (fs : FsPath → Bool) (resolve : String → FsPath)
    (run : List String → ProcResult) (md : String) (args : List String) (v : FsPath)
    (hfind : find_venv_path_from_file fs (resolve md) = some v)
    (hmd : ¬ pyStrip md = "") :
    ((run (subprocess_command_list (v ++ ["bin", "python"]) md args)).exitCode = 0 →
      subprocess_fetch_output fs resolve run md (.inl args) =
        .ok [("output",
          pyStrip (run (subprocess_command_list (v ++ ["bin", "python"]) md args)).stdout)])
    ∧ ((run (subprocess_command_list (v ++ ["bin", "python"]) md args)).exitCode ≠ 0 →
      subprocess_fetch_output fs resolve run md (.inl args) =
        .error (.runtimeError ("Command failed with error: " ++
          pyStrip (run (subprocess_command_list (v ++ ["bin", "python"]) md args)).stderr))
      ∧ strContainsSub
          ("Command failed with error: " ++
            pyStrip (run (subprocess_command_list (v ++ ["bin", "python"]) md args)).stderr)
          (pyStrip (run (subprocess_command_list (v ++ ["bin", "python"]) md args)).stderr)
          = true) := by
  have hpy := find_venv_path_from_file_python_exists fs (resolve md) v hfind
  have hfsne : ¬ fs (v ++ ["bin", "python"]) = false := by simp [hpy]
  have hmain : subprocess_fetch_output fs resolve run md (.inl args) =
      (if (run (subprocess_command_list (v ++ ["bin", "python"]) md args)).exitCode = 0 then
        Except.ok [("output",
          pyStrip (run (subprocess_command_list (v ++ ["bin", "python"]) md args)).stdout)]
      else
        Except.error (.runtimeError ("Command failed with error: " ++
          pyStrip (run (subprocess_command_list (v ++ ["bin", "python"]) md args)).stderr))) := by
    unfold subprocess_fetch_output
    rw [hfind]
    simp only [if_neg hfsne, if_neg hmd]
  refine ⟨?_, ?_⟩
  · intro hexit
    rw [hmain, if_pos hexit]
  · intro hexit
    refine ⟨?_, strContainsSub_append_left _ _⟩
    rw [hmain, if_neg hexit]

theorem C8_subprocess_run_capture_witness :
    subprocess_fetch_output fsEx resolveEx runOkEx "script.py" (.inl []) =
      .ok [("output", "hello")] := by
  have h := (C8_subprocess_run_capture fsEx resolveEx runOkEx "script.py" []
    ["home", ".venv"] (by decide) (by decide)).1 (by decide)
  rw [h]
  rfl

/-- C8 counterexample: a child whose captured stderr is `" boom "` (with
surrounding whitespace) produces the message
`Command failed with error: boom`, which does not contain the captured
stderr text verbatim. -/
theorem C8_counterexample :
    subprocess_fetch_output fsEx resolveEx runFailEx "script.py" (.inl []) =
      .error (.runtimeError "Command failed with error: boom")
    ∧ strContainsSub "Command failed with error: boom" " boom " = false := by
  constructor
  · rfl
  · decide

/-- C6 (amended): the Official Website Score command line places,
immediately after the `--query` flag, the single argument
`shlex.quote(name_search)`; that value equals `name_search` when the latter
is non-empty and consists only of shlex-safe characters, but when
`name_search` contains an embedded space (and no single quote) the argument
is the original string wrapped in single quotes — a different string, so the
value is not preserved. -/
theorem C6_webscore_query_argument (venv_python : FsPath) (md s : String) :
    webscore_command_list venv_python md s =
      [pathToString venv_python, md, "--query", shlex_quote s]
    ∧ (s ≠ "" → s.toList.all shlexSafeChar = true → shlex_quote s = s)
    ∧ (' ' ∈ s.toList → '\x27' ∉ s.toList →
        shlex_quote s = "\x27" ++ s ++ "\x27" ∧ shlex_quote s ≠ s) := by
  refine ⟨rfl, ?_, ?_⟩
  · intro hne hall
    unfold shlex_quote
    rw [if_neg hne, if_pos hall]
  · intro hsp hq
    have hne : ¬ s = "" := by
      intro h
      subst h
      simp at hsp
    have hall : ¬ s.toList.all shlexSafeChar = true := by
      intro hall
      have hsafe := List.all_eq_true.mp hall _ hsp
      simp [shlexSafeChar] at hsafe
    have hquote : shlex_quote s = "\x27" ++ s ++ "\x27" := by
      unfold shlex_quote
      rw [if_neg hne, if_neg hall]
      rw [flatMap_keep_of_no_quote _ hq]
      rfl
    refine ⟨hquote, ?_⟩
    intro heq
    rw [hquote] at heq
    have hlen := congrArg String.length heq
    have h1 : ("\x27" : String).length = 1 := rfl
    rw [String.length_append, String.length_append, h1] at hlen
    omega

theorem C6_webscore_query_argument_witness :
    webscore_command_list ["home", ".venv", "bin", "python"] "mod.py" "abc" =
      ["/home/.venv/bin/python", "mod.py", "--query", shlex_quote "abc"]
    ∧ shlex_quote "abc" = "abc"
    ∧ shlex_quote "a b" = "\x27a b\x27" := by
  refine ⟨(C6_webscore_query_argument ["home", ".venv", "bin", "python"] "mod.py" "abc").1,
    (C6_webscore_query_argument ["home", ".venv", "bin", "python"] "mod.py" "abc").2.1
      (by decide) (by decide),
    (((C6_webscore_query_argument [] "" "a b").2.2 (by decide) (by decide)).1).trans
      (by decide)⟩

/-- C6 counterexample: for `name_search = "a b"`, the argument following
`--query` is the five-character string `'a b'` (with literal single quotes),
which is not equal to `a b`: the value is not preserved when it contains an
embedded space. -/
theorem C6_counterexample :
    webscore_command_list ["home", ".venv", "bin", "python"] "script.py" "a b" =
      ["/home/.venv/bin/python", "script.py", "--query", "\x27a b\x27"]
    ∧ ("\x27a b\x27" : String) ≠ "a b" := by
  constructor
  · decide
  · decide

/-- C5 (amended): for every non-empty configured URL `u`, the exposed
component constructs an embedding client bound to `u` (its `url_embedding`
field), but every single-text embedding operation POSTs its
`inputs`-payload to the fixed `url_jina` endpoint regardless of `u`, and
returns the first element of a JSON array response; when the URL field is
unset the build fails with the "Embedding URL is required." error. -/
theorem C5_embed_component (u text : String) (hu : u ≠ "")
    (http : PostRequest → JsonVal) :
    build_embeddings u = .ok { url_embedding := u }
    ∧ embedPostRequest { url_embedding := u } text =
        { url := url_jina, inputsPayload := text }
    ∧ (∀ x rest, http (embedPostRequest { url_embedding := u } text) = .arr (x :: rest) →
        embed_one http { url_embedding := u } text = .ok x)
    ∧ build_embeddings "" = .error (.valueError "Embedding URL is required.") := by
  refine ⟨?_, rfl, ?_, rfl⟩
  · unfold build_embeddings
    rw [if_neg hu]
  · intro x rest h
    unfold embed_one
    rw [h]
    rfl

theorem C5_embed_component_witness :
    build_embeddings "http://example.com/embed" =
      .ok { url_embedding := "http://example.com/embed" }
    ∧ embed_one (fun _ => JsonVal.arr [JsonVal.num 1])
        { url_embedding := "http://example.com/embed" } "hi" = .ok (JsonVal.num 1) := by
  have h := C5_embed_component "http://example.com/embed" "hi" (by decide)
    (fun _ => JsonVal.arr [JsonVal.num 1])
  exact ⟨h.1, h.2.2.1 (JsonVal.num 1) [] rfl⟩

/-- C5 counterexample: building with URL `http://example.com/embed` yields a
client bound to that URL, yet the single-text embedding request is sent to
the hard-coded `url_jina` address (`http://172.17.101.36:8086/embed`), not
to the configured URL. -/
theorem C5_counterexample :
    build_embeddings "http://example.com/embed" =
      .ok { url_embedding := "http://example.com/embed" }
    ∧ (embedPostRequest { url_embedding := "http://example.com/embed" } "hi").url =
        "http://172.17.101.36:8086/embed"
    ∧ (embedPostRequest { url_embedding := "http://example.com/embed" } "hi").url ≠
        "http://example.com/embed" := by
  refine ⟨rfl, rfl, by decide⟩

theorem faiss_ubc_index_eq (bc : BuildConfig) :
    FaissVectorStoreComponent.update_build_config bc "Index" (some "mode") =
      dictSet (dictSet (dictSet (dictSet bc "search_query" false)
        "number_of_results" false) "similarity_threshold" false) "ingest_data" true := by
  unfold FaissVectorStoreComponent.update_build_config set_field_display
  rw [if_pos rfl, if_pos rfl]

theorem faiss_ubc_search_eq (bc : BuildConfig) :
    FaissVectorStoreComponent.update_build_config bc "Search" (some "mode") =
      dictSet (dictSet (dictSet (dictSet bc "search_query" true)
        "number_of_results" true) "similarity_threshold" true) "ingest_data" false := by
  unfold FaissVectorStoreComponent.update_build_config set_field_display
  rw [if_pos rfl, if_neg (by decide), if_pos rfl]

/-- C10 (amended): for the File-Backed Vector Store, applying the
configuration-update hook with `mode = "Index"` makes `ingest_data` visible
and hides `search_query`, `number_of_results` and `similarity_threshold`,
and `mode = "Search"` produces the exact inverse assignment; the Networked
Vector Database Store defines no such hook, so applying its inherited hook
leaves every visibility flag unchanged. -/
theorem C10_mode_visibility (bc : BuildConfig) (fv : String) (fn : Option String) :
    (dictGet (FaissVectorStoreComponent.update_build_config bc "Index" (some "mode"))
        "ingest_data" = some true
      ∧ dictGet (FaissVectorStoreComponent.update_build_config bc "Index" (some "mode"))
          "search_query" = some false
      ∧ dictGet (FaissVectorStoreComponent.update_build_config bc "Index" (some "mode"))
          "number_of_results" = some false
      ∧ dictGet (FaissVectorStoreComponent.update_build_config bc "Index" (some "mode"))
          "similarity_threshold" = some false)
    ∧ (dictGet (FaissVectorStoreComponent.update_build_config bc "Search" (some "mode"))
        "ingest_data" = some false
      ∧ dictGet (FaissVectorStoreComponent.update_build_config bc "Search" (some "mode"))
          "search_query" = some true
      ∧ dictGet (FaissVectorStoreComponent.update_build_config bc "Search" (some "mode"))
          "number_of_results" = some true
      ∧ dictGet (FaissVectorStoreComponent.update_build_config bc "Search" (some "mode"))
          "similarity_threshold" = some true)
    ∧ MilvusVectorSTore.update_build_config bc fv fn = bc := by
  refine ⟨⟨?_, ?_, ?_, ?_⟩, ⟨?_, ?_, ?_, ?_⟩, rfl⟩
  · rw [faiss_ubc_index_eq]
    exact dictGet_dictSet_same _ _ _
  · rw [faiss_ubc_index_eq,
      dictGet_dictSet_other _ "ingest_data" "search_query" true (by decide),
      dictGet_dictSet_other _ "similarity_threshold" "search_query" false (by decide),
      dictGet_dictSet_other _ "number_of_results" "search_query" false (by decide)]
    exact dictGet_dictSet_same _ _ _
  · rw [faiss_ubc_index_eq,
      dictGet_dictSet_other _ "ingest_data" "number_of_results" true (by decide),
      dictGet_dictSet_other _ "similarity_threshold" "number_of_results" false (by decide)]
    exact dictGet_dictSet_same _ _ _
  · rw [faiss_ubc_index_eq,
      dictGet_dictSet_other _ "ingest_data" "similarity_threshold" true (by decide)]
    exact dictGet_dictSet_same _ _ _
  · rw [faiss_ubc_search_eq]
    exact dictGet_dictSet_same _ _ _
  · rw [faiss_ubc_search_eq,
      dictGet_dictSet_other _ "ingest_data" "search_query" false (by decide),
      dictGet_dictSet_other _ "similarity_threshold" "search_query" true (by decide),
      dictGet_dictSet_other _ "number_of_results" "search_query" true (by decide)]
    exact dictGet_dictSet_same _ _ _
  · rw [faiss_ubc_search_eq,
      dictGet_dictSet_other _ "ingest_data" "number_of_results" false (by decide),
      dictGet_dictSet_other _ "similarity_threshold" "number_of_results" true (by decide)]
    exact dictGet_dictSet_same _ _ _
  · rw [faiss_ubc_search_eq,
      dictGet_dictSet_other _ "ingest_data" "similarity_threshold" false (by decide)]
    exact dictGet_dictSet_same _ _ _

/-- C10 counterexample: the Networked Vector Database Store's hook, applied
with `mode = "Index"` to a configuration in which `ingest_data` is hidden,
leaves `ingest_data` hidden instead of making it visible. -/
theorem C10_counterexample :
    MilvusVectorSTore.update_build_config
        [("ingest_data", false), ("search_query", true)] "Index" (some "mode") =
      [("ingest_data", false), ("search_query", true)]
    ∧ dictGet (MilvusVectorSTore.update_build_config
        [("ingest_data", false), ("search_query", true)] "Index" (some "mode"))
        "ingest_data" = some false :=
  ⟨rfl, rfl⟩

/-- C4: in Search mode over an existing index with a valid query and a
positive neighbor count `k = min(number_of_results, ntotal)`, a returned
(id, distance) pair contributes the record mapping `faiss_id` to the id if
and only if the id is not `-1` and the distance is strictly greater than
`similarity_threshold`; in particular distances `[0.2, 0.6, 0.9]` with
threshold `0.5` keep exactly the entries with distances `0.6` and `0.9`. -/
theorem C4_faiss_threshold_filter (q : Option String) (nres ntotal : Nat)
    (search : Nat → List Int × List ℚ) (thr : ℚ)
    (hq : isValidQuery q = true) (hk : ¬ min nres ntotal = 0) :
    (FaissVectorStoreComponent.get_results_search true q nres ntotal search thr =
      .ok ((((search (min nres ntotal)).1.zip (search (min nres ntotal)).2).filter
          (fun p => decide (p.1 ≠ -1) && decide (thr < p.2))).map
        (fun p => [("faiss_id", MVal.int p.1)])))
    ∧ (∀ rec : Dict MVal,
        rec ∈ ((((search (min nres ntotal)).1.zip (search (min nres ntotal)).2).filter
            (fun p => decide (p.1 ≠ -1) && decide (thr < p.2))).map
          (fun p => [("faiss_id", MVal.int p.1)])) ↔
        ∃ p ∈ (search (min nres ntotal)).1.zip (search (min nres ntotal)).2,
          p.1 ≠ -1 ∧ thr < p.2 ∧ rec = [("faiss_id", MVal.int p.1)])
    ∧ FaissVectorStoreComponent.get_results_search true (some "query") 3 3
        (fun _ => ([0, 1, 2], [(0.2 : ℚ), 0.6, 0.9])) (0.5 : ℚ) =
        .ok [[("faiss_id", MVal.int 1)], [("faiss_id", MVal.int 2)]] := by
  refine ⟨?_, ?_, ?_⟩
  · unfold FaissVectorStoreComponent.get_results_search
    rw [if_neg (by decide), if_neg (by simp [hq]), if_neg hk]
  · intro rec
    simp only [List.mem_map, List.mem_filter, Bool.and_eq_true, decide_eq_true_eq]
    constructor
    · rintro ⟨p, ⟨hmem, hid, hthr⟩, hrec⟩
      exact ⟨p, hmem, hid, hthr, hrec.symm⟩
    · rintro ⟨p, hmem, hid, hthr, hrec⟩
      exact ⟨p, ⟨hmem, hid, hthr⟩, hrec.symm⟩
  · unfold FaissVectorStoreComponent.get_results_search
    rw [if_neg (by decide), if_neg (by decide), if_neg (by decide)]
    refine congrArg Except.ok ?_
    norm_num [List.filter]

theorem C4_faiss_threshold_filter_witness :
    isValidQuery (some "query") = true
    ∧ FaissVectorStoreComponent.get_results_search true (some "query") 3 3
        (fun _ => ([0, 1, 2], [(0.2 : ℚ), 0.6, 0.9])) (0.5 : ℚ) =
      .ok [[("faiss_id", MVal.int 1)], [("faiss_id", MVal.int 2)]] :=
  ⟨by decide, (C4_faiss_threshold_filter (some "query") 3 3
      (fun _ => ([0, 1, 2], [(0.2 : ℚ), 0.6, 0.9])) (0.5 : ℚ)
      (by decide) (by decide)).2.2⟩

/-- C3: every successful Index-mode build over a non-empty normalized
document list of length `n` (one embedding vector returned per document)
assigns the ids `0..n-1` in input order — both as the id column of the
persisted index and in the output documents: the i-th output record's
metadata maps `faiss_id` to id `i`, while every other metadata key and the
text body of the originating document are preserved. -/
theorem C3_faiss_id_assignment (embed : List String → List (List ℚ))
    (documents : List LCDocument) (hne : documents ≠ [])
    (hlen : (embed (documents.map (fun d => d.page_content))).length
      = documents.length) :
    ∃ r, FaissVectorStoreComponent.build_vector_store embed documents = .ok r
      ∧ r.index.entries.map Prod.fst =
          (List.range documents.length).map (fun i => Int.ofNat i)
      ∧ r.documents.length = documents.length
      ∧ ∀ i, i < documents.length →
          ∃ dIn dOut, documents[i]? = some dIn ∧ r.documents[i]? = some dOut
            ∧ dOut.page_content = dIn.page_content
            ∧ dictGet dOut.metadata "faiss_id" = some (.int i)
            ∧ ∀ k', k' ≠ "faiss_id" →
                dictGet dOut.metadata k' = dictGet dIn.metadata k' := by
  have hn : 0 < documents.length := List.length_pos.mpr hne
  have hemb : embed (documents.map (fun d => d.page_content)) ≠ [] := by
    intro h
    rw [h] at hlen
    simp only [List.length_nil] at hlen
    omega
  refine ⟨⟨⟨(((List.range documents.length).map (fun i => Int.ofNat i)).zip
        (embed (documents.map (fun d => d.page_content))))⟩,
      FaissVectorStoreComponent.combine_index_with_ingested_data
        documents ((List.range documents.length).map (fun i => Int.ofNat i))⟩,
    ?_, ?_, ?_, ?_⟩
  · unfold FaissVectorStoreComponent.build_vector_store
    rw [if_neg hne, if_neg hemb]
  · apply List.map_fst_zip
    rw [List.length_map, List.length_range, hlen]
  · unfold FaissVectorStoreComponent.combine_index_with_ingested_data
    rw [List.length_map, List.length_zip, List.length_map, List.length_range,
      min_self]
  · intro i hi
    have hdIn : documents[i]? = some documents[i] := List.getElem?_eq_getElem hi
    have hid : ((List.range documents.length).map (fun j => Int.ofNat j))[i]? =
        some (Int.ofNat i) := by
      rw [List.getElem?_map, List.getElem?_range hi]
      rfl
    have hzip : (documents.zip
        ((List.range documents.length).map (fun j => Int.ofNat j)))[i]? =
        some (documents[i], Int.ofNat i) :=
      List.getElem?_zip_eq_some.mpr ⟨hdIn, hid⟩
    refine ⟨documents[i],
      { page_content := documents[i].page_content,
        metadata := dictSet documents[i].metadata "faiss_id" (.int (Int.ofNat i)) },
      hdIn, ?_, rfl, dictGet_dictSet_same _ _ _,
      fun k' hk' => dictGet_dictSet_other _ _ _ _ hk'⟩
    unfold FaissVectorStoreComponent.combine_index_with_ingested_data
    rw [List.getElem?_map, hzip]
    rfl

theorem C3_faiss_id_assignment_witness :
    ∃ r, FaissVectorStoreComponent.build_vector_store
        (fun ts => ts.map (fun _ => [(1 : ℚ)]))
        [{ page_content := "alpha", metadata := [("source", MVal.str "a")] },
         { page_content := "beta", metadata := [] }] = .ok r
      ∧ r.documents.length = 2 := by
  obtain ⟨r, hok, _hids, hlen, _hprops⟩ := C3_faiss_id_assignment
    (fun ts => ts.map (fun _ => [(1 : ℚ)]))
    [{ page_content := "alpha", metadata := [("source", MVal.str "a")] },
     { page_content := "beta", metadata := [] }] (by decide) (by simp)
  exact ⟨r, hok, hlen⟩

theorem ingestBatches_nil {α : Type} (b : Nat) (hb : 0 < b) :
    ingestBatches ([] : List α) b = [] := by
  unfold ingestBatches
  have h : ((List.nil : List α).length + b - 1) / b = 0 := by
    rw [List.length_nil]
    exact Nat.div_eq_of_lt (by omega)
  rw [h]
  rfl

theorem ingestBatches_cons {α : Type} (b : Nat) (hb : 0 < b) (data : List α)
    (hne : data ≠ []) :
    ingestBatches data b = data.take b :: ingestBatches (data.drop b) b := by
  have hn : 1 ≤ data.length := List.length_pos.mpr hne
  have hk : (data.length + b - 1) / b = (data.length - 1) / b + 1 := by
    have h : data.length + b - 1 = (data.length - 1) + b := by omega
    rw [h, Nat.add_div_right _ hb]
  have hk2 : ((data.drop b).length + b - 1) / b = (data.length - 1) / b := by
    rw [List.length_drop]
    rcases le_or_lt b data.length with hbn | hbn
    · have h : data.length - b + b - 1 = data.length - 1 := by omega
      rw [h]
    · have h0 : data.length - b = 0 := by omega
      rw [h0]
      have h1 : (0 + b - 1) / b = 0 := Nat.div_eq_of_lt (by omega)
      have h2 : (data.length - 1) / b = 0 := Nat.div_eq_of_lt (by omega)
      rw [h1, h2]
  unfold ingestBatches
  rw [hk2, hk, List.range'_succ, List.map_cons, List.drop_zero]
  congr 1
  have hshift : List.range' (0 + b) ((data.length - 1) / b) b =
      List.map (fun i => b + i) (List.range' 0 ((data.length - 1) / b) b) := by
    rw [List.map_add_range']
    congr 1
    omega
  rw [hshift, List.map_map]
  congr 1
  funext i
  simp only [Function.comp]
  rw [List.drop_drop]

theorem ingestBatches_flatten {α : Type} (b : Nat) (hb : 0 < b) (data : List α) :
    (ingestBatches data b).flatten = data := by
  generalize hn : data.length = n
  induction n using Nat.strong_induction_on generalizing data with
  | _ n ih =>
    rcases eq_or_ne data [] with rfl | hne
    · rw [ingestBatches_nil b hb]
      rfl
    · rw [ingestBatches_cons b hb data hne, List.flatten_cons]
      rw [ih ((data.drop b).length) ?_ (data.drop b) rfl]
      · exact List.take_append_drop b data
      · rw [List.length_drop, ← hn]
        have hpos := List.length_pos.mpr hne
        omega

theorem foldl_append_docs (batches : List (List (Dict MVal))) (init : MongoCollection) :
    (batches.foldl (fun acc b => { docs := acc.docs ++ b }) init).docs =
      init.docs ++ batches.flatten := by
  induction batches generalizing init with
  | nil => simp
  | cons b bs ih => simp [ih, List.append_assoc]

theorem ingestBatches_map_length {α : Type} (data : List α) (b : Nat) :
    (ingestBatches data b).map List.length =
      (List.range' 0 ((data.length + b - 1) / b) b).map
        (fun i => min b (data.length - i)) := by
  unfold ingestBatches
  rw [List.map_map]
  congr 1
  funext i
  simp [Function.comp, List.length_take, List.length_drop]

/-- C9: the Document Database Store's ingest deletes every document in the
collection before any insertion, then inserts the `n` input payloads in
contiguous batches of `batch_size` in input order, one bulk-insert call per
batch (`ceil(n / batch_size)` calls, each batch at most `batch_size` long);
in particular 2500 records with `batch_size = 1000` produce exactly 3 insert
batches of sizes 1000, 1000 and 500. -/
theorem C9_mongo_ingest_batching (ingest_data : List (Dict MVal))
    (batch_size : Nat) (c : MongoCollection) (hb : 0 < batch_size) :
    (MongoDBStore.ingest true ingest_data batch_size c).2 =
      MongoOp.deleteMany ::
        (ingestBatches ingest_data batch_size).map MongoOp.insertMany
    ∧ (MongoDBStore.ingest true ingest_data batch_size c).1.docs = ingest_data
    ∧ (ingestBatches ingest_data batch_size).length =
        (ingest_data.length + batch_size - 1) / batch_size
    ∧ (∀ batch ∈ ingestBatches ingest_data batch_size, batch.length ≤ batch_size)
    ∧ (ingestBatches (List.range 2500) 1000).map List.length = [1000, 1000, 500] := by
  refine ⟨rfl, ?_, ?_, ?_, ?_⟩
  · have h : (MongoDBStore.ingest true ingest_data batch_size c).1 =
        (ingestBatches ingest_data batch_size).foldl
          (fun acc b => { docs := acc.docs ++ b }) ({ docs := [] } : MongoCollection) := rfl
    rw [h, foldl_append_docs, ingestBatches_flatten batch_size hb]
    rfl
  · unfold ingestBatches
    rw [List.length_map, List.length_range']
  · intro batch hmem
    unfold ingestBatches at hmem
    rcases List.mem_map.mp hmem with ⟨i, _, hbatch⟩
    rw [← hbatch, List.length_take]
    exact min_le_left _ _
  · rw [ingestBatches_map_length, List.length_range]
    norm_num [List.range']

theorem C9_mongo_ingest_batching_witness :
    (MongoDBStore.ingest true [] 1000 { docs := [] }).2 = [MongoOp.deleteMany]
    ∧ (ingestBatches (List.range 2500) 1000).map List.length = [1000, 1000, 500] :=
  ⟨(C9_mongo_ingest_batching [] 1000 { docs := [] } (by decide)).1,
    (C9_mongo_ingest_batching [] 1000 { docs := [] } (by decide)).2.2.2.2⟩

theorem currentDb_modifyCurrentDb (s : MilvusServer)
    (f : List MilvusCollection → List MilvusCollection) :
    (modifyCurrentDb s f).currentDb = s.currentDb := rfl

theorem currentDb_dropFold (names : List String) (s : MilvusServer) :
    (names.foldl (fun acc n => drop_collection acc n) s).currentDb = s.currentDb := by
  induction names generalizing s with
  | nil => rfl
  | cons n ns ih =>
    simp only [List.foldl_cons]
    rw [ih]
    rfl

theorem pred_comp_modify (s : MilvusServer)
    (f : List MilvusCollection → List MilvusCollection) (n : String) :
    ((fun d : MilvusDatabase => decide (d.name = n)) ∘ (fun d =>
      if d.name = s.currentDb then { d with collections := f d.collections } else d)) =
      (fun d : MilvusDatabase => decide (d.name = n)) := by
  funext d
  by_cases h : d.name = s.currentDb <;> simp [Function.comp, h]

theorem list_database_modifyCurrentDb (s : MilvusServer)
    (f : List MilvusCollection → List MilvusCollection) :
    list_database (modifyCurrentDb s f) = list_database s := by
  unfold list_database modifyCurrentDb
  rw [List.map_map]
  apply List.map_congr_left
  intro d _
  by_cases h : d.name = s.currentDb <;> simp [Function.comp, h]

theorem list_database_dropFold (names : List String) (s : MilvusServer) :
    list_database (names.foldl (fun acc n => drop_collection acc n) s) =
      list_database s := by
  induction names generalizing s with
  | nil => rfl
  | cons n ns ih =>
    simp only [List.foldl_cons]
    rw [ih]
    unfold drop_collection
    exact list_database_modifyCurrentDb _ _

theorem collectionsOf_modifyCurrentDb (s : MilvusServer)
    (f : List MilvusCollection → List MilvusCollection) (n : String) :
    collectionsOf (modifyCurrentDb s f) n =
      match s.databases.find? (fun d => d.name = n) with
      | some d => if d.name = s.currentDb then f d.collections else d.collections
      | none => [] := by
  unfold collectionsOf modifyCurrentDb
  simp only
  rw [List.find?_map, pred_comp_modify]
  cases hfind : s.databases.find? (fun d => d.name = n) with
  | none => rfl
  | some d => by_cases h : d.name = s.currentDb <;> simp [h]

theorem find?_db_modifyCurrentDb (s : MilvusServer)
    (f : List MilvusCollection → List MilvusCollection) (n : String) :
    ((modifyCurrentDb s f).databases.find? (fun d => d.name = n)).isSome =
      (s.databases.find? (fun d => d.name = n)).isSome := by
  unfold modifyCurrentDb
  simp only
  rw [List.find?_map, pred_comp_modify]
  cases s.databases.find? (fun d => d.name = n) <;> rfl

theorem find?_db_dropFold (names : List String) (s : MilvusServer) (n : String) :
    (((names.foldl (fun acc m => drop_collection acc m) s)).databases.find?
        (fun d => d.name = n)).isSome =
      (s.databases.find? (fun d => d.name = n)).isSome := by
  induction names generalizing s with
  | nil => rfl
  | cons m ms ih =>
    simp only [List.foldl_cons]
    rw [ih]
    unfold drop_collection
    exact find?_db_modifyCurrentDb _ _ _

theorem currentCollections_eq_collectionsOf (s : MilvusServer) :
    currentCollections s = collectionsOf s s.currentDb := rfl

theorem currentCollections_drop (s : MilvusServer) (n : String) :
    currentCollections (drop_collection s n) =
      (currentCollections s).filter (fun c => c.name != n) := by
  unfold drop_collection
  rw [currentCollections_eq_collectionsOf, currentDb_modifyCurrentDb,
    collectionsOf_modifyCurrentDb, currentCollections_eq_collectionsOf]
  unfold collectionsOf
  cases hfind : s.databases.find? (fun d => d.name = s.currentDb) with
  | none => rfl
  | some d =>
    have hname : d.name = s.currentDb := by simpa using List.find?_some hfind
    simp [hname]

theorem currentCollections_dropFold (names : List String) (s : MilvusServer) :
    currentCollections (names.foldl (fun acc n => drop_collection acc n) s) =
      names.foldl (fun cols n => cols.filter (fun c => c.name != n))
        (currentCollections s) := by
  induction names generalizing s with
  | nil => rfl
  | cons n ns ih =>
    simp only [List.foldl_cons]
    rw [ih, currentCollections_drop]

theorem filter_names_out (names : List String) (cols : List MilvusCollection)
    (h : ∀ c ∈ cols, c.name ∈ names) :
    names.foldl (fun cs n => cs.filter (fun c => c.name != n)) cols = [] := by
  induction names generalizing cols with
  | nil =>
    cases cols with
    | nil => rfl
    | cons c cs => exact absurd (h c (List.mem_cons_self c cs)) (by simp)
  | cons n ns ih =>
    simp only [List.foldl_cons]
    apply ih
    intro c hc
    rcases List.mem_filter.mp hc with ⟨hmem, hname⟩
    have hne : c.name ≠ n := by simpa using hname
    rcases List.mem_cons.mp (h c hmem) with h2 | h2
    · exact absurd h2 hne
    · exact h2

theorem provision_core (cfg : MilvusConfig) (s1 : MilvusServer)
    (hcur : s1.currentDb = cfg.db_name)
    (hex : (s1.databases.find? (fun d => d.name = cfg.db_name)).isSome = true) :
    collectionsOf (create_collection
        (((currentCollections s1).map (fun c => c.name)).foldl
          (fun acc n => drop_collection acc n) s1)
        cfg.collection_name DIMENSION) cfg.db_name =
      [{ name := cfg.collection_name, dim := DIMENSION }]
    ∧ list_database (create_collection
        (((currentCollections s1).map (fun c => c.name)).foldl
          (fun acc n => drop_collection acc n) s1)
        cfg.collection_name DIMENSION) = list_database s1
    ∧ (create_collection
        (((currentCollections s1).map (fun c => c.name)).foldl
          (fun acc n => drop_collection acc n) s1)
        cfg.collection_name DIMENSION).currentDb = cfg.db_name := by
  have hcols2 : currentCollections (((currentCollections s1).map (fun c => c.name)).foldl
      (fun acc n => drop_collection acc n) s1) = [] := by
    rw [currentCollections_dropFold]
    exact filter_names_out _ _ (fun c hc => List.mem_map.mpr ⟨c, hc, rfl⟩)
  generalize hs2 : (((currentCollections s1).map (fun c => c.name)).foldl
      (fun acc n => drop_collection acc n) s1) = s2
  rw [hs2] at hcols2
  have hcur2 : s2.currentDb = cfg.db_name := by
    rw [← hs2, currentDb_dropFold]
    exact hcur
  have hex2 : (s2.databases.find? (fun d => d.name = cfg.db_name)).isSome = true := by
    rw [← hs2, find?_db_dropFold]
    exact hex
  obtain ⟨d, hd⟩ := Option.isSome_iff_exists.mp hex2
  have hdname : d.name = cfg.db_name := by simpa using List.find?_some hd
  have hdcols : d.collections = [] := by
    have h1 : currentCollections s2 = d.collections := by
      rw [currentCollections_eq_collectionsOf, hcur2]
      unfold collectionsOf
      rw [hd]
    rw [← h1, hcols2]
  refine ⟨?_, ?_, ?_⟩
  · show collectionsOf (modifyCurrentDb s2 _) cfg.db_name = _
    rw [collectionsOf_modifyCurrentDb, hd]
    simp only
    rw [if_pos (by rw [hdname, hcur2]), hdcols]
    rfl
  · show list_database (modifyCurrentDb s2 _) = _
    rw [list_database_modifyCurrentDb, ← hs2, list_database_dropFold]
  · show (modifyCurrentDb s2 _).currentDb = _
    rw [currentDb_modifyCurrentDb]
    exact hcur2

theorem provision_eq_pos (cfg : MilvusConfig) (s : MilvusServer)
    (hdb : cfg.db_name ∈ list_database s) :
    MilvusVectorSTore.initial_client_vector_store cfg s =
      (create_collection
          (((currentCollections (using_database s cfg.db_name)).map
              (fun c => c.name)).foldl
            (fun acc n => drop_collection acc n) (using_database s cfg.db_name))
          cfg.collection_name DIMENSION,
        [MilvusOp.listDatabases, MilvusOp.usingDatabase cfg.db_name,
            MilvusOp.listCollections] ++
          ((currentCollections (using_database s cfg.db_name)).map
              (fun c => c.name)).map MilvusOp.dropCollection ++
          [MilvusOp.createCollection cfg.collection_name DIMENSION]) := by
  unfold MilvusVectorSTore.initial_client_vector_store
  rw [if_pos hdb]
  rfl

theorem provision_eq_neg (cfg : MilvusConfig) (s : MilvusServer)
    (hdb : cfg.db_name ∉ list_database s) :
    MilvusVectorSTore.initial_client_vector_store cfg s =
      (create_collection
          (((currentCollections
                (using_database (create_database s cfg.db_name) cfg.db_name)).map
              (fun c => c.name)).foldl
            (fun acc n => drop_collection acc n)
            (using_database (create_database s cfg.db_name) cfg.db_name))
          cfg.collection_name DIMENSION,
        [MilvusOp.listDatabases, MilvusOp.createDatabase cfg.db_name,
            MilvusOp.usingDatabase cfg.db_name, MilvusOp.listCollections] ++
          ((currentCollections
                (using_database (create_database s cfg.db_name) cfg.db_name)).map
              (fun c => c.name)).map MilvusOp.dropCollection ++
          [MilvusOp.createCollection cfg.collection_name DIMENSION]) := by
  unfold MilvusVectorSTore.initial_client_vector_store
  rw [if_neg hdb]
  rfl

theorem mem_list_database_iff_find?_isSome (s : MilvusServer) (n : String) :
    n ∈ list_database s ↔
      (s.databases.find? (fun d => d.name = n)).isSome = true := by
  rw [List.find?_isSome]
  unfold list_database
  constructor
  · intro h
    rcases List.mem_map.mp h with ⟨d, hd, hname⟩
    exact ⟨d, hd, by simp [hname]⟩
  · rintro ⟨d, hd, hname⟩
    exact List.mem_map.mpr ⟨d, hd, by simpa using hname⟩

theorem collectionsOf_using_database (s : MilvusServer) (n : String) :
    collectionsOf (using_database s n) n = currentCollections (using_database s n) := rfl

theorem collectionsOf_eq_nil_of_not_mem (s : MilvusServer) (n : String)
    (h : n ∉ list_database s) : collectionsOf s n = [] := by
  have hnone : s.databases.find? (fun d => d.name = n) = none := by
    rcases hfind : s.databases.find? (fun d => d.name = n) with _ | d
    · exact hfind
    · exact absurd ((mem_list_database_iff_find?_isSome s n).mpr (by rw [hfind]; rfl)) h
  unfold collectionsOf
  rw [hnone]

theorem list_database_create_database (s : MilvusServer) (n : String) :
    list_database (create_database s n) = list_database s ++ [n] := by
  unfold list_database create_database
  rw [List.map_append]
  rfl

theorem provision_drops_all (cfg : MilvusConfig) (s : MilvusServer) :
    ∀ c ∈ collectionsOf s cfg.db_name,
      MilvusOp.dropCollection c.name ∈
        (MilvusVectorSTore.initial_client_vector_store cfg s).2 := by
  intro c hc
  by_cases hdb : cfg.db_name ∈ list_database s
  · rw [provision_eq_pos cfg s hdb]
    simp only [List.mem_append]
    refine Or.inl (Or.inr ?_)
    rw [List.map_map]
    exact List.mem_map.mpr ⟨c, hc, rfl⟩
  · rw [collectionsOf_eq_nil_of_not_mem s cfg.db_name hdb] at hc
    cases hc

/-- C1: provisioning switches context to the configured database, creating
it first exactly when it is not among the listed databases (when it is
present the database list is unchanged — no re-creation); it then issues a
drop for every collection currently existing in that database (not only the
configured one), leaving the database holding exactly the configured
collection with dimensionality `DIMENSION = 768`. -/
theorem C1_milvus_provisioning (cfg : MilvusConfig) (s : MilvusServer) :
    (MilvusVectorSTore.initial_client_vector_store cfg s).1.currentDb = cfg.db_name
    ∧ list_database (MilvusVectorSTore.initial_client_vector_store cfg s).1 =
        (if cfg.db_name ∈ list_database s then list_database s
          else list_database s ++ [cfg.db_name])
    ∧ collectionsOf (MilvusVectorSTore.initial_client_vector_store cfg s).1
        cfg.db_name = [{ name := cfg.collection_name, dim := DIMENSION }]
    ∧ (∀ c ∈ collectionsOf s cfg.db_name,
        MilvusOp.dropCollection c.name ∈
          (MilvusVectorSTore.initial_client_vector_store cfg s).2)
    ∧ DIMENSION = 768 := by
  by_cases hdb : cfg.db_name ∈ list_database s
  · have hex : ((using_database s cfg.db_name).databases.find?
        (fun d => d.name = cfg.db_name)).isSome = true :=
      (mem_list_database_iff_find?_isSome s cfg.db_name).mp hdb
    have hcore := provision_core cfg (using_database s cfg.db_name) rfl hex
    refine ⟨?_, ?_, ?_, provision_drops_all cfg s, rfl⟩
    · rw [provision_eq_pos cfg s hdb]
      exact hcore.2.2
    · rw [provision_eq_pos cfg s hdb, if_pos hdb]
      exact hcore.2.1
    · rw [provision_eq_pos cfg s hdb]
      exact hcore.1
  · have hnone : s.databases.find? (fun d => d.name = cfg.db_name) = none := by
      rcases hfind : s.databases.find? (fun d => d.name = cfg.db_name) with _ | d
      · exact hfind
      · exact absurd ((mem_list_database_iff_find?_isSome s cfg.db_name).mpr
          (by rw [hfind]; rfl)) hdb
    have hex : ((using_database (create_database s cfg.db_name)
        cfg.db_name).databases.find?
        (fun d => d.name = cfg.db_name)).isSome = true := by
      show ((s.databases ++ [(⟨cfg.db_name, []⟩ : MilvusDatabase)]).find?
          (fun d => d.name = cfg.db_name)).isSome = true
      rw [List.find?_append, hnone]
      simp
    have hcore := provision_core cfg
      (using_database (create_database s cfg.db_name) cfg.db_name) rfl hex
    refine ⟨?_, ?_, ?_, provision_drops_all cfg s, rfl⟩
    · rw [provision_eq_neg cfg s hdb]
      exact hcore.2.2
    · rw [provision_eq_neg cfg s hdb, if_neg hdb]
      exact hcore.2.1.trans (list_database_create_database s cfg.db_name)
    · rw [provision_eq_neg cfg s hdb]
      exact hcore.1

/-- C2: a Search-mode invocation of `main` with no cached store instance is
not read-only: it first runs the provisioning step — whose trace contains a
drop for every collection of the configured database and contains no search
operation — and only afterwards performs the similarity search; the full
operation trace is the provisioning trace followed by the search. -/
theorem C2_milvus_search_not_readonly (cfg : MilvusConfig) (s : MilvusServer)
    (q : Option String) (hq : isValidQuery q = true) :
    (MilvusVectorSTore.main_search false cfg s q).2 =
      (MilvusVectorSTore.initial_client_vector_store cfg s).2 ++
        [MilvusOp.similaritySearch (q.getD "") cfg.number_of_results]
    ∧ (∀ c ∈ collectionsOf s cfg.db_name,
        MilvusOp.dropCollection c.name ∈
          (MilvusVectorSTore.initial_client_vector_store cfg s).2)
    ∧ (∀ q' k, MilvusOp.similaritySearch q' k ∉
        (MilvusVectorSTore.initial_client_vector_store cfg s).2) := by
  refine ⟨?_, provision_drops_all cfg s, ?_⟩
  · unfold MilvusVectorSTore.main_search MilvusVectorSTore.search_documents
      MilvusVectorSTore.build_vector_store
    simp [hq]
  · intro q' k h
    by_cases hdb : cfg.db_name ∈ list_database s
    · rw [provision_eq_pos cfg s hdb] at h
      simp [List.mem_append, List.mem_map] at h
    · rw [provision_eq_neg cfg s hdb] at h
      simp [List.mem_append, List.mem_map] at h

theorem C2_milvus_search_not_readonly_witness :
    isValidQuery (some "hello") = true
    ∧ (MilvusVectorSTore.main_search false milvusCfgEx milvusServerEx
        (some "hello")).2 =
      (MilvusVectorSTore.initial_client_vector_store milvusCfgEx
        milvusServerEx).2 ++ [MilvusOp.similaritySearch "hello" 4] :=
  ⟨by decide, (C2_milvus_search_not_readonly milvusCfgEx milvusServerEx
    (some "hello") (by decide)).1⟩

theorem C1_milvus_provisioning_witness :
    collectionsOf (MilvusVectorSTore.initial_client_vector_store milvusCfgEx
        milvusServerEx).1 "langflow_db" =
      [{ name := "langflow", dim := DIMENSION }] :=
  (C1_milvus_provisioning milvusCfgEx milvusServerEx).2.2.1

theorem C7_find_venv_discovery_witness :
    find_venv_path_from_file fsEx ["home", "proj", "script.py"] =
      some ["home", ".venv"] := by
  have h := (C7_find_venv_discovery fsEx ["home", "proj", "script.py"]).1
  rw [h]
  decide

theorem C10_mode_visibility_witness :
    dictGet (FaissVectorStoreComponent.update_build_config
        [("search_query", true), ("ingest_data", false)] "Index" (some "mode"))
      "ingest_data" = some true :=
  (C10_mode_visibility [("search_query", true), ("ingest_data", false)] "Index"
    (some "mode")).1.1

end NantawatTool
